import Mathlib

/-!
Verification of the Domain-Checker repository's core logic: the
multi-domain status-check orchestration (sequential throttled mode and
parallel settle-all mode), candidate generation, merge/de-duplication,
status classification, the server's search and status endpoints, and the
client-side search/expand handlers with their cache interaction.

External collaborators (the HTTP transport to the upstream provider) are
modelled as injected functions returning `Except String _`: `.ok` is a
fulfilled lookup, `.error msg` is a rejected/failed lookup carrying its
error message. All definitions are translated from the JavaScript source
(`client/src/services/api.js`, `client/src/App.js`, `server/index.js`,
`client/src/config.js`).
-/

namespace DomainChecker

/-- A domain suggestion record as produced by the server's
`GET /api/search` endpoint: `{ domain, path, subdomain, zone }`
(server/index.js, `suggestions = tlds.map(...)`). -/
structure Suggestion where
  domain : String
  path : String
  subdomain : String
  zone : String
deriving Repr, DecidableEq

/-- One entry of the `status` array of a `GET /api/status` response, or of
the client-side placeholder built by `checkMultipleDomainStatus` on a
failed lookup. Fields absent from a given JS object literal are modelled
as `none` (for the optional `zone`, `availability`, `error` fields). -/
structure StatusRecord where
  domain : String
  zone : Option String
  status : String
  summary : String
  availability : Option String
  error : Option String
deriving Repr, DecidableEq

/-- The body of a `GET /api/status` response: `{ status: [ ... ] }`. -/
structure StatusResponse where
  status : List StatusRecord
deriving Repr, DecidableEq

/-- The body of a `GET /api/search` response: `{ results: [ ... ] }`. -/
structure SearchResponse where
  results : List Suggestion
deriving Repr, DecidableEq

/-- The placeholder pushed by `checkMultipleDomainStatus` when the lookup
for one domain fails (api.js):
`{ status: [{ domain, status: '', summary: '', error: error.message }] }`. -/
def placeholderResult (d : String) (msg : String) : StatusResponse :=
  { status := [{ domain := d, zone := none, status := "", summary := "",
                 availability := none, error := some msg }] }

/-- One iteration of the loop body of `checkMultipleDomainStatus`
(api.js): `try { result = await checkDomainStatus(domains[i]);
results.push(result) } catch (error) { results.push(placeholder) }`.
The injected `checkDomainStatus` collaborator is the `lookup` argument. -/
def checkOne (lookup : String → Except String StatusResponse)
    (d : String) : StatusResponse :=
  match lookup d with
  | .ok r => r
  | .error e => placeholderResult d e

/-- The sequential loop of `checkMultipleDomainStatus` (api.js):
`for (let i = 0; i < domains.length; i++) { ...push result or
placeholder...; if (i < domains.length - 1) await delay(1200); }`.
Returns the accumulated `results` array together with the list of delay
durations (in milliseconds) awaited, in order of occurrence. -/
def checkLoop (lookup : String → Except String StatusResponse) :
    List String → List StatusResponse × List Nat
  | [] => ([], [])
  | d :: rest =>
    let r := checkOne lookup d
    match rest with
    | [] => ([r], [])
    | e :: rest' =>
      let p := checkLoop lookup (e :: rest')
      (r :: p.1, 1200 :: p.2)

/-- `checkMultipleDomainStatus` (api.js). The outer
`try { ... return results } catch (error) { throw error }` rethrows only
if the body throws; the body's single fallible operation
(`checkDomainStatus`) is caught per item inside the loop, so the function
always returns `.ok` of the results array. The `Except` return type
records the "may throw" signature of the JS function. -/
def checkMultipleDomainStatus (lookup : String → Except String StatusResponse)
    (domains : List String) : Except String (List StatusResponse) :=
  .ok (checkLoop lookup domains).1

theorem checkLoop_fst (lookup : String → Except String StatusResponse) :
    ∀ domains : List String,
      (checkLoop lookup domains).1 = domains.map (checkOne lookup)
  | [] => rfl
  | [d] => rfl
  | d :: e :: rest => by
    simp only [checkLoop, List.map]
    exact congrArg _ (checkLoop_fst lookup (e :: rest))

theorem checkLoop_snd (lookup : String → Except String StatusResponse) :
    ∀ domains : List String,
      (checkLoop lookup domains).2 = List.replicate (domains.length - 1) 1200
  | [] => rfl
  | [d] => rfl
  | d :: e :: rest => by
    simp only [checkLoop, List.length_cons]
    rw [checkLoop_snd lookup (e :: rest)]
    simp [List.replicate]

/-- C1: for every input list of domain names and every behavior of the
per-domain lookup collaborator, `checkMultipleDomainStatus` returns
(never throws) the array `domains.map (checkOne lookup)`: exactly one
entry per input domain, in input order, where position `i` is the
successful lookup result for `domains[i]` or, when that lookup failed
with message `e`, the placeholder `placeholderResult domains[i] e`
(empty `status`/`summary`, carrying the error message). Each position
depends only on its own domain's lookup, so a failure on item `i` never
prevents items `i+1..n` from being attempted. -/
theorem sequential_orchestrator_alignment
    (lookup : String → Except String StatusResponse) (domains : List String) :
    checkMultipleDomainStatus lookup domains
      = .ok (domains.map (checkOne lookup)) ∧
    ∀ d e, lookup d = .error e → checkOne lookup d = placeholderResult d e := by
  constructor
  · unfold checkMultipleDomainStatus
    rw [checkLoop_fst]
  · intro d e he
    unfold checkOne
    rw [he]

/-- Closed instance of `sequential_orchestrator_alignment` at a lookup
that fails on every domain and a two-domain input list. -/
theorem sequential_orchestrator_alignment_witness :
    checkMultipleDomainStatus (fun _ => Except.error "timeout")
        ["example.com", "example.net"]
      = .ok ((["example.com", "example.net"] : List String).map
          (checkOne (fun _ => Except.error "timeout"))) :=
  (sequential_orchestrator_alignment (fun _ => Except.error "timeout")
    ["example.com", "example.net"]).1

/-- C6: in sequential-throttled mode over `n` input domains, the delays
performed are exactly `n - 1` waits of 1200 ms each (so none at all when
`n ≤ 1`), one between each pair of consecutive lookups and none after the
last. -/
theorem sequential_orchestrator_delays
    (lookup : String → Except String StatusResponse) (domains : List String) :
    (checkLoop lookup domains).2
      = List.replicate (domains.length - 1) 1200 ∧
    (domains.length ≤ 1 → (checkLoop lookup domains).2 = []) := by
  refine ⟨checkLoop_snd lookup domains, fun h => ?_⟩
  rw [checkLoop_snd lookup domains, Nat.sub_eq_zero_of_le h, List.replicate_zero]

/-- Closed instance of `sequential_orchestrator_delays` at a three-domain
input list: exactly two 1200 ms delays. -/
theorem sequential_orchestrator_delays_witness :
    (checkLoop (fun _ => Except.error "timeout")
        ["example.com", "example.net", "example"]).2
      = List.replicate
          ((["example.com", "example.net", "example"] :
            List String).length - 1) 1200 :=
  (sequential_orchestrator_delays (fun _ => Except.error "timeout")
    ["example.com", "example.net", "example"]).1

/-- `COMMON_TLDS` (client/src/config.js): the client's fixed TLD list used
by the expand-search flow. -/
def COMMON_TLDS : List String :=
  ["com", "net", "org", "io", "co", "app", "dev", "tech", "ai", "shop", "store"]

/-- The whitespace test of the JavaScript regexp class `\s` restricted to
the ASCII characters that Lean's `Char.isWhitespace` also recognises
(space, tab, carriage return, line feed); the inputs of interest are
ASCII. -/
def isJsWhitespace (c : Char) : Bool := c.isWhitespace

/-- JavaScript `String.prototype.trim`: remove leading and trailing
whitespace. Spelled out over the character list so that it evaluates by
kernel reduction. -/
def jsTrim (s : String) : String :=
  String.mk
    (((s.data.dropWhile isJsWhitespace).reverse.dropWhile isJsWhitespace).reverse)

/-- `query.trim().replace(/\s+/g, '')` (App.js, `handleExpandSearch`):
the query base with all whitespace removed. -/
def expandQueryBase (query : String) : String :=
  String.mk ((jsTrim query).data.filter (fun c => !isJsWhitespace c))

/-- `additionalQueries` (App.js, `handleExpandSearch`):
`[...COMMON_TLDS.map(tld => queryBase + '.' + tld), queryBase]`, built
over an arbitrary TLD list so the spec's two-TLD scenario is an
instance. -/
def additionalQueries (tlds : List String) (query : String) : List String :=
  let queryBase := expandQueryBase query
  tlds.map (fun tld => queryBase ++ "." ++ tld) ++ [queryBase]

/-- C5: candidate generation strips internal whitespace from the base
query, then yields one candidate `base ++ "." ++ tld` per configured TLD,
in list order (position `i` holds the candidate for the `i`-th TLD),
followed by the bare base as the single final extra candidate; for base
"example" and TLDs ["com", "net"] the candidates are exactly
["example.com", "example.net", "example"], and internal whitespace
("ex ample") is stripped first. -/
theorem candidate_generation_spec (tlds : List String) (query : String) :
    (additionalQueries tlds query).length = tlds.length + 1 ∧
    (∀ i (h : i < tlds.length),
      (additionalQueries tlds query).get? i
        = some (expandQueryBase query ++ "." ++ tlds.get ⟨i, h⟩)) ∧
    (additionalQueries tlds query).get? tlds.length
      = some (expandQueryBase query) ∧
    additionalQueries ["com", "net"] "example"
      = ["example.com", "example.net", "example"] ∧
    additionalQueries ["com", "net"] "ex ample"
      = ["example.com", "example.net", "example"] := by
  refine ⟨?_, ?_, ?_, by decide, by decide⟩
  · simp [additionalQueries]
  · intro i h
    rw [additionalQueries, List.get?_append (by simpa using h), List.get?_map,
      List.get?_eq_get h]
    rfl
  · rw [additionalQueries]
    have : tlds.length = (tlds.map
        (fun tld => expandQueryBase query ++ "." ++ tld)).length := by simp
    rw [this, List.get?_concat_length]

/-- Closed instance of `candidate_generation_spec`, discharging its
per-index hypothesis at `tlds = ["com", "net"]`, `i = 0`. -/
theorem candidate_generation_spec_witness :
    (additionalQueries ["com", "net"] "example").get? 0
      = some (expandQueryBase "example" ++ "." ++
          (["com", "net"] : List String).get ⟨0, by decide⟩) :=
  (candidate_generation_spec ["com", "net"] "example").2.1 0 (by decide)

/-- `getDomainStatusClass` (App.js): `if (!summary) return '';
if (summary === 'inactive') return 'available'; return 'unavailable';`.
The argument is always a string at the call sites (`statusData.summary
|| ''`), so JS falsiness of `summary` is `summary = ""`. -/
def getDomainStatusClass (summary : String) : String :=
  if summary = "" then ""
  else if summary = "inactive" then "available"
  else "unavailable"

/-- `DOMAIN_STATUS_TEXT` (client/src/config.js) as an association list;
the keys are the values of the `DOMAIN_STATUS` constant. -/
def DOMAIN_STATUS_TEXT : List (String × String) :=
  [("active", "No disponible (Registrado)"),
   ("inactive", "Disponible"),
   ("undelegated", "Disponible"),
   ("available", "Disponible")]

/-- `getDomainStatusText` (App.js):
`DOMAIN_STATUS_TEXT[summary] || DOMAIN_STATUS_TEXT.default`. Every value
in the table is a non-empty string, so JS `||` falls back to the default
exactly when the key is absent. -/
def getDomainStatusText (summary : String) : String :=
  match DOMAIN_STATUS_TEXT.lookup summary with
  | some t => t
  | none => "Estado desconocido"

/-- C8: the status classifier maps "inactive" to the "available" bucket,
any other non-empty value to the "unavailable" bucket, and the
empty/absent value to a third outcome — the empty class together with the
default text "Estado desconocido" — which differs from both buckets and
is never coerced into "unavailable". -/
theorem classifier_boundary (s : String) (h1 : s ≠ "") (h2 : s ≠ "inactive") :
    getDomainStatusClass "inactive" = "available" ∧
    getDomainStatusClass s = "unavailable" ∧
    getDomainStatusClass "" = "" ∧
    getDomainStatusText "" = "Estado desconocido" ∧
    getDomainStatusClass "" ≠ "available" ∧
    getDomainStatusClass "" ≠ "unavailable" := by
  refine ⟨by decide, ?_, by decide, by decide, by decide, by decide⟩
  rw [getDomainStatusClass, if_neg h1, if_neg h2]

/-- Closed instance of `classifier_boundary` at the non-empty,
non-"inactive" raw value "active". -/
theorem classifier_boundary_witness :
    getDomainStatusClass "active" = "unavailable" :=
  (classifier_boundary "active" (by decide) (by decide)).2.1

/-- `sanitizeInput` (server/index.js):
`input.trim().replace(/[<>]/g, '')` (for string inputs). -/
def sanitizeInput (input : String) : String :=
  String.mk ((jsTrim input).data.filter (fun c => c ≠ '<' ∧ c ≠ '>'))

/-- The error codes with which the v2 server's `GET /api/search` handler
rejects a request before generating suggestions (server/index.js). -/
inductive SearchApiError where
  | missingQuery
  | queryTooShort
  | queryTooLong
deriving Repr, DecidableEq

/-- The fixed TLD list of the v2 server's `GET /api/search` handler
(server/index.js): `const tlds = ['com', 'net', 'org', 'io', 'co', 'app',
'dev', 'ai', 'me', 'tech', 'online']`. -/
def searchTlds : List String :=
  ["com", "net", "org", "io", "co", "app", "dev", "ai", "me", "tech", "online"]

/-- The v2 server's `GET /api/search` handler (server/index.js): sanitize
the query, reject empty / too-short / too-long queries with a 400 error,
otherwise return `{ results: tlds.map(tld => ({ domain: query + '.' +
tld, path: '/domains/' + query + '.' + tld, subdomain: '', zone:
tld })) }`. The handler consults no upstream collaborator: its output is
a pure function of the query string alone. -/
def apiSearch (rawQuery : String) : Except SearchApiError SearchResponse :=
  let query := sanitizeInput rawQuery
  if query = "" then .error .missingQuery
  else if query.length < 2 then .error .queryTooShort
  else if query.length > 100 then .error .queryTooLong
  else .ok { results := searchTlds.map (fun tld =>
    { domain := query ++ "." ++ tld,
      path := "/domains/" ++ query ++ "." ++ tld,
      subdomain := "",
      zone := tld }) }

/-- C10: for every query whose sanitized form has between 2 and 100
characters, `GET /api/search` succeeds deterministically with exactly one
suggestion per entry of its fixed 11-TLD list, in list order, the `i`-th
having `domain = query ++ "." ++ tld_i` and `zone = tld_i`; being a pure
function of the query, two calls with the same query agree. -/
theorem api_search_deterministic_suggestions (rawQuery : String)
    (h2 : 2 ≤ (sanitizeInput rawQuery).length)
    (h100 : (sanitizeInput rawQuery).length ≤ 100) :
    (∃ resp : SearchResponse,
      apiSearch rawQuery = .ok resp ∧
      resp.results.length = searchTlds.length ∧
      searchTlds.length = 11 ∧
      ∀ i (h : i < searchTlds.length),
        (resp.results.get? i).map Suggestion.domain
          = some (sanitizeInput rawQuery ++ "." ++ searchTlds.get ⟨i, h⟩) ∧
        (resp.results.get? i).map Suggestion.zone
          = some (searchTlds.get ⟨i, h⟩)) ∧
    apiSearch rawQuery = apiSearch rawQuery := by
  have hne : sanitizeInput rawQuery ≠ "" := by
    intro h
    rw [h] at h2
    exact absurd h2 (by decide)
  have hok : apiSearch rawQuery = .ok { results := searchTlds.map (fun tld =>
      { domain := sanitizeInput rawQuery ++ "." ++ tld,
        path := "/domains/" ++ sanitizeInput rawQuery ++ "." ++ tld,
        subdomain := "",
        zone := tld }) } := by
    simp only [apiSearch, if_neg hne, if_neg (Nat.not_lt.mpr h2),
      if_neg (Nat.not_lt.mpr h100)]
  refine ⟨⟨_, hok, by simp, by decide, ?_⟩, rfl⟩
  intro i h
  constructor <;>
    rw [List.get?_map, List.get?_eq_get h] <;> rfl

/-- Closed instance of `api_search_deterministic_suggestions` at the
query "example" (sanitized length 7). -/
theorem api_search_deterministic_suggestions_witness :
    (∃ resp : SearchResponse,
      apiSearch "example" = .ok resp ∧
      resp.results.length = searchTlds.length ∧
      searchTlds.length = 11 ∧
      ∀ i (h : i < searchTlds.length),
        (resp.results.get? i).map Suggestion.domain
          = some (sanitizeInput "example" ++ "." ++ searchTlds.get ⟨i, h⟩) ∧
        (resp.results.get? i).map Suggestion.zone
          = some (searchTlds.get ⟨i, h⟩)) ∧
    apiSearch "example" = apiSearch "example" :=
  api_search_deterministic_suggestions "example" (by decide) (by decide)

/-- The payload returned by the upstream Domains API for one domain, as
read by the v2 server's `GET /api/status` handler: `domainInfo
.availability` and `domainInfo.tld` (server/index.js). An absent or empty
`tld` is modelled as `none` / `some ""` (both falsy in JS). -/
structure DomainInfo where
  availability : String
  tld : Option String
deriving Repr, DecidableEq

/-- `domain.split('.').pop()`: the last dot-separated component of the
domain name (server/index.js, fallback for the `zone` field). -/
def lastDomainComponent (domain : String) : String :=
  (domain.splitOn ".").getLastD ""

/-- The response mapping of the v2 server's `GET /api/status` handler
(server/index.js): `isAvailable = domainInfo.availability ===
'available'`, then `{ status: [{ domain, zone: domainInfo.tld ||
domain.split('.').pop(), status: isAvailable ? 'inactive' : 'active',
summary: isAvailable ? 'available' : 'taken', availability }] }`. -/
def apiStatusOf (info : DomainInfo) (domain : String) : StatusResponse :=
  let isAvailable := info.availability = "available"
  { status := [{ domain := domain,
                 zone := some (match info.tld with
                   | some t => if t = "" then lastDomainComponent domain else t
                   | none => lastDomainComponent domain),
                 status := if isAvailable then "inactive" else "active",
                 summary := if isAvailable then "available" else "taken",
                 availability := some info.availability,
                 error := none }] }

/-- The inner `forEach` of the de-duplication loop in `handleExpandSearch`
(App.js): walk one fulfilled batch, and for each suggestion whose domain
is not yet in the `allDomains` set, add the domain to the set and push the
suggestion onto `combinedResults`. State is `(allDomains,
combinedResults)`. -/
def addBatch : List Suggestion → List String → List Suggestion →
    List String × List Suggestion
  | [], seen, acc => (seen, acc)
  | r :: rest, seen, acc =>
    if r.domain ∈ seen then addBatch rest seen acc
    else addBatch rest (r.domain :: seen) (acc ++ [r])

/-- The outer `searchResults.forEach` of `handleExpandSearch` (App.js)
over the `Promise.allSettled` outcomes: a fulfilled outcome with a
non-empty `results` array contributes its batch through `addBatch`; a
rejected outcome (or one with an empty array) contributes nothing. -/
def collectLoop : List (Except String SearchResponse) → List String →
    List Suggestion → List String × List Suggestion
  | [], seen, acc => (seen, acc)
  | .ok resp :: rest, seen, acc =>
    if resp.results.length > 0 then
      collectLoop rest (addBatch resp.results seen acc).1
        (addBatch resp.results seen acc).2
    else collectLoop rest seen acc
  | .error _ :: rest, seen, acc => collectLoop rest seen acc

/-- The merged, de-duplicated suggestion list that `handleExpandSearch`
(App.js) extracts from the settled outcomes of all candidate-query
lookups, starting from an empty `allDomains` set and an empty
`combinedResults` array. -/
def collectSettled (settled : List (Except String SearchResponse)) :
    List Suggestion :=
  (collectLoop settled [] []).2

theorem addBatch_mem_of (batch : List Suggestion) (seen : List String)
    (acc : List Suggestion) (r : Suggestion)
    (hr : r ∈ (addBatch batch seen acc).2) : r ∈ acc ∨ r ∈ batch := by
  induction batch generalizing seen acc with
  | nil => exact Or.inl hr
  | cons b rest ih =>
    rw [addBatch] at hr
    by_cases hb : b.domain ∈ seen
    · rw [if_pos hb] at hr
      rcases ih _ _ hr with h | h
      · exact Or.inl h
      · exact Or.inr (List.mem_cons_of_mem _ h)
    · rw [if_neg hb] at hr
      rcases ih _ _ hr with h | h
      · rcases List.mem_append.mp h with h | h
        · exact Or.inl h
        · exact Or.inr (List.mem_cons.mpr (Or.inl (List.mem_singleton.mp h)))
      · exact Or.inr (List.mem_cons_of_mem _ h)

theorem collectLoop_mem_of (settled : List (Except String SearchResponse))
    (seen : List String) (acc : List Suggestion) (r : Suggestion)
    (hr : r ∈ (collectLoop settled seen acc).2) :
    r ∈ acc ∨ ∃ resp : SearchResponse,
      Except.ok resp ∈ settled ∧ r ∈ resp.results := by
  induction settled generalizing seen acc with
  | nil => exact Or.inl hr
  | cons o rest ih =>
    match o with
    | .error e =>
      rw [collectLoop] at hr
      rcases ih _ _ hr with h | ⟨resp, hin, hmem⟩
      · exact Or.inl h
      · exact Or.inr ⟨resp, List.mem_cons_of_mem _ hin, hmem⟩
    | .ok resp₀ =>
      rw [collectLoop] at hr
      by_cases hlen : resp₀.results.length > 0
      · rw [if_pos hlen] at hr
        rcases ih _ _ hr with h | ⟨resp, hin, hmem⟩
        · rcases addBatch_mem_of _ _ _ _ h with h | h
          · exact Or.inl h
          · exact Or.inr ⟨resp₀, List.mem_cons_self _ _, h⟩
        · exact Or.inr ⟨resp, List.mem_cons_of_mem _ hin, hmem⟩
      · rw [if_neg hlen] at hr
        rcases ih _ _ hr with h | ⟨resp, hin, hmem⟩
        · exact Or.inl h
        · exact Or.inr ⟨resp, List.mem_cons_of_mem _ hin, hmem⟩

/-- C3: in expand-search mode the settled outcomes of all candidate-query
lookups are aggregated totally — `collectSettled` is a total function, so
no subset of failures raises an exception to the caller — and every
suggestion in the merged output originates in some fulfilled
(successful) lookup: failed lookups are excluded outright rather than
represented by placeholders. In particular an all-failure batch yields
the empty output. -/
theorem settle_all_aggregation (settled : List (Except String SearchResponse))
    (r : Suggestion) (hr : r ∈ collectSettled settled) :
    (∃ resp : SearchResponse,
      Except.ok resp ∈ settled ∧ r ∈ resp.results) ∧
    ∀ failures : List String,
      collectSettled (failures.map Except.error) = [] := by
  constructor
  · rcases collectLoop_mem_of settled [] [] r hr with h | h
    · exact absurd h (List.not_mem_nil r)
    · exact h
  · intro failures
    induction failures with
    | nil => rfl
    | cons f rest ih => exact ih

/-- Closed instance of `settle_all_aggregation`: five settled candidate
lookups of which two fail outright; the suggestion for "example.com"
(from the first successful batch) is in the merged output, and the
theorem locates it in a fulfilled lookup. -/
theorem settle_all_aggregation_witness :
    ∃ resp : SearchResponse,
      Except.ok resp ∈
        ([.ok { results := [{ domain := "example.com", path := "",
                              subdomain := "", zone := "com" }] },
          .error "timeout",
          .ok { results := [{ domain := "example.net", path := "",
                              subdomain := "", zone := "net" }] },
          .error "rate limited",
          .ok { results := [] }] :
          List (Except String SearchResponse)) ∧
      ({ domain := "example.com", path := "", subdomain := "",
         zone := "com" } : Suggestion) ∈ resp.results :=
  (settle_all_aggregation _ _ (by decide)).1

/-- A client-side result record: a `Suggestion` spread together with the
`status` and `summary` fields extracted from the status lookup (App.js,
`{ ...result, status: ..., summary: ... }`). -/
structure DomainRec where
  domain : String
  path : String
  subdomain : String
  zone : String
  status : String
  summary : String
deriving Repr, DecidableEq

/-- The empty object `{}` that `statusData` defaults to when a status
response or its first entry is absent (App.js,
`statusResponses[index]?.status?.[0] || {}`); reading `.status` or
`.summary` from it, `|| ''` yields the empty string. -/
def emptyStatusData : StatusRecord :=
  { domain := "", zone := none, status := "", summary := "",
    availability := none, error := none }

/-- The combination step shared by `handleSearch` and `handleExpandSearch`
(App.js): `results.map((result, index) => { const statusData =
statusResponses[index]?.status?.[0] || {}; return { ...result, status:
statusData.status || '', summary: statusData.summary || '' }; })`. -/
def combineResults (suggestions : List Suggestion)
    (statusResponses : List StatusResponse) : List DomainRec :=
  suggestions.mapIdx (fun index s =>
    let statusData :=
      (((statusResponses.get? index).bind (fun resp => resp.status.head?)).getD
        emptyStatusData)
    { domain := s.domain, path := s.path, subdomain := s.subdomain,
      zone := s.zone, status := statusData.status,
      summary := statusData.summary })

/-- The merge of `handleExpandSearch` (App.js): `combinedDomains = new
Set(results.map(r => r.domain)); filteredNewResults = newResults.filter(r
=> !combinedDomains.has(r.domain)); setResults([...results,
...filteredNewResults])`. -/
def mergeResults (results newResults : List DomainRec) : List DomainRec :=
  results ++ newResults.filter
    (fun r => decide (r.domain ∉ results.map DomainRec.domain))

theorem combineResults_map_domain (suggestions : List Suggestion)
    (statusResponses : List StatusResponse) :
    (combineResults suggestions statusResponses).map DomainRec.domain
      = suggestions.map Suggestion.domain := by
  apply List.ext_getElem (by simp [combineResults])
  intro i h1 h2
  simp [combineResults, List.getElem_map, List.getElem_mapIdx]

theorem addBatch_nodup (batch : List Suggestion) (seen : List String)
    (acc : List Suggestion)
    (h : (acc.map Suggestion.domain).Nodup ∧
      ∀ d ∈ acc.map Suggestion.domain, d ∈ seen) :
    ((addBatch batch seen acc).2.map Suggestion.domain).Nodup ∧
      ∀ d ∈ (addBatch batch seen acc).2.map Suggestion.domain,
        d ∈ (addBatch batch seen acc).1 := by
  induction batch generalizing seen acc with
  | nil => exact h
  | cons b rest ih =>
    by_cases hb : b.domain ∈ seen
    · rw [addBatch, if_pos hb]
      exact ih _ _ h
    · rw [addBatch, if_neg hb]
      refine ih _ _ ⟨?_, ?_⟩
      · rw [List.map_append, List.nodup_append]
        refine ⟨h.1, List.nodup_singleton _, ?_⟩
        intro d hd1 hd2
        rw [List.map_singleton, List.mem_singleton] at hd2
        subst hd2
        exact hb (h.2 _ hd1)
      · intro d hd
        rw [List.map_append, List.mem_append] at hd
        rcases hd with hd | hd
        · exact List.mem_cons_of_mem _ (h.2 d hd)
        · rw [List.map_singleton, List.mem_singleton] at hd
          subst hd
          exact List.mem_cons_self _ _

theorem collectLoop_nodup (settled : List (Except String SearchResponse))
    (seen : List String) (acc : List Suggestion)
    (h : (acc.map Suggestion.domain).Nodup ∧
      ∀ d ∈ acc.map Suggestion.domain, d ∈ seen) :
    ((collectLoop settled seen acc).2.map Suggestion.domain).Nodup := by
  induction settled generalizing seen acc with
  | nil => exact h.1
  | cons o rest ih =>
    match o with
    | .error e =>
      rw [collectLoop]
      exact ih _ _ h
    | .ok resp =>
      rw [collectLoop]
      by_cases hlen : resp.results.length > 0
      · rw [if_pos hlen]
        exact ih _ _ (addBatch_nodup _ _ _ h)
      · rw [if_neg hlen]
        exact ih _ _ h

theorem collectSettled_domains_nodup
    (settled : List (Except String SearchResponse)) :
    ((collectSettled settled).map Suggestion.domain).Nodup :=
  collectLoop_nodup settled [] [] ⟨List.nodup_nil, by simp⟩

/-- C4: merging a new batch into an existing result set keeps the
existing set unchanged as a prefix, appends — in batch order (the
appended suffix is a sublist of the batch) — exactly those incoming items
whose domain is not already present, and is idempotent: re-merging the
same batch changes nothing, so expanding twice with identical candidate
sets never changes the existing prefix. Merged domains stay duplicate
free, the intra-batch de-duplication of expand-search always emits
duplicate-free domains, and the status-combination step preserves the
domains, so the expanded result set has no duplicate domains. -/
theorem merge_dedup_spec (ex b : List DomainRec)
    (hex : (ex.map DomainRec.domain).Nodup)
    (hb : (b.map DomainRec.domain).Nodup) :
    (mergeResults ex b).take ex.length = ex ∧
    (∀ r : DomainRec, r ∈ mergeResults ex b ↔
      r ∈ ex ∨ (r ∈ b ∧ r.domain ∉ ex.map DomainRec.domain)) ∧
    List.Sublist ((mergeResults ex b).drop ex.length) b ∧
    mergeResults (mergeResults ex b) b = mergeResults ex b ∧
    ((mergeResults ex b).map DomainRec.domain).Nodup ∧
    (∀ settled, ((collectSettled settled).map Suggestion.domain).Nodup) ∧
    (∀ suggestions statusResponses,
      (combineResults suggestions statusResponses).map DomainRec.domain
        = suggestions.map Suggestion.domain) := by
  refine ⟨?_, ?_, ?_, ?_, ?_, collectSettled_domains_nodup,
    combineResults_map_domain⟩
  · rw [mergeResults]
    exact List.take_left _ _
  · intro r
    simp only [mergeResults, List.mem_append, List.mem_filter,
      decide_eq_true_eq]
  · rw [mergeResults, List.drop_left]
    exact List.filter_sublist b
  · have hnil : b.filter (fun r => decide (r.domain ∉
        (mergeResults ex b).map DomainRec.domain)) = [] := by
      rw [List.filter_eq_nil]
      intro r hr
      simp only [decide_eq_true_eq, not_not, mergeResults,
        List.map_append, List.mem_append]
      by_cases hd : r.domain ∈ ex.map DomainRec.domain
      · exact Or.inl hd
      · exact Or.inr (List.mem_map_of_mem _
          (List.mem_filter.mpr ⟨hr, by simpa using hd⟩))
    conv_lhs => rw [mergeResults]
    rw [hnil, List.append_nil]
  · rw [mergeResults, List.map_append, List.nodup_append]
    refine ⟨hex, ?_, ?_⟩
    · exact hb.sublist ((List.filter_sublist b).map DomainRec.domain)
    · intro d hd1 hd2
      obtain ⟨r, hrf, rfl⟩ := List.mem_map.mp hd2
      have hpred := (List.mem_filter.mp hrf).2
      rw [decide_eq_true_eq] at hpred
      exact hpred hd1

/-- Closed instance of `merge_dedup_spec`: idempotence at a concrete
one-element existing set and a concrete two-element batch sharing one
domain with it. -/
theorem merge_dedup_spec_witness :
    mergeResults
        (mergeResults
          [{ domain := "example.com", path := "", subdomain := "",
             zone := "com", status := "active", summary := "taken" }]
          [{ domain := "example.com", path := "", subdomain := "",
             zone := "com", status := "active", summary := "taken" },
           { domain := "example.net", path := "", subdomain := "",
             zone := "net", status := "inactive", summary := "available" }])
        [{ domain := "example.com", path := "", subdomain := "",
           zone := "com", status := "active", summary := "taken" },
         { domain := "example.net", path := "", subdomain := "",
           zone := "net", status := "inactive", summary := "available" }]
      = mergeResults
          [{ domain := "example.com", path := "", subdomain := "",
             zone := "com", status := "active", summary := "taken" }]
          [{ domain := "example.com", path := "", subdomain := "",
             zone := "com", status := "active", summary := "taken" },
           { domain := "example.net", path := "", subdomain := "",
             zone := "net", status := "inactive", summary := "available" }] :=
  (merge_dedup_spec _ _ (by decide) (by decide)).2.2.2.1

/-- Insertion step of the lexicographic sort used by `generateKey`. -/
def insertParam (p : String × String) :
    List (String × String) → List (String × String)
  | [] => [p]
  | q :: rest => if p.1 ≤ q.1 then p :: q :: rest else q :: insertParam p rest

/-- Insertion sort of a parameter mapping by parameter name. -/
def sortParams : List (String × String) → List (String × String)
  | [] => []
  | p :: rest => insertParam p (sortParams rest)

/-- Modelled from the spec: `client/src/services/cache.js` is not among
the source files (the README only declares its methods). Per the spec,
`generateKey(base, params)` "deterministically builds a cache key from a
base string and an unordered parameter mapping by sorting parameter names
lexicographically and concatenating `name=value` pairs". -/
def generateKey (base : String) (params : List (String × String)) : String :=
  base ++ String.join
    ((sortParams params).map (fun p => p.1 ++ "=" ++ p.2))

/-- Modelled from the spec: the Cache's `set(key, value)` "inserts or
overwrites an entry with `expiry = now + ttl`". The scenarios verified
here use a handful of fresh entries well under capacity and within their
TTL, so expiry timestamps, LRU eviction order and the `enabled` flag are
not represented; an insert-in-front association list gives the same
`get`/`set` observations on that fragment. -/
def cacheSet (entries : List (String × List DomainRec)) (key : String)
    (value : List DomainRec) : List (String × List DomainRec) :=
  (key, value) :: entries

/-- Modelled from the spec: the Cache's `get(key)` "returns the cached
value if present and unexpired" and "returns miss (a sentinel absent
value, never a thrown error)" otherwise; `none` is the miss sentinel. -/
def cacheGet (entries : List (String × List DomainRec)) (key : String) :
    Option (List DomainRec) :=
  entries.lookup key

/-- The client component state touched by the search handlers (App.js):
the `query`, `results`, `error` and `expanded` `useState` cells, plus the
session cache instance. `loading` is not represented: both handlers
return immediately when it is set, and the transitions modelled here are
the non-loading runs. -/
structure ClientState where
  query : String
  results : List DomainRec
  error : String
  expanded : Bool
  cacheEntries : List (String × List DomainRec)
deriving Repr, DecidableEq

/-- `handleSearch` (App.js, v2): guard the empty query, consult the cache
(`if (cachedResults) { setResults(cachedResults); setExpanded(false);
return; }`), otherwise clear the state, fetch suggestions, check every
suggested domain sequentially, combine, store in the cache and publish.
A thrown `searchDomains` error is caught and written to the `error`
state. The two HTTP collaborators `searchDomains` / `checkDomainStatus`
are the injected `searchFn` / `statusFn`. -/
def handleSearch (searchFn : String → Except String SearchResponse)
    (statusFn : String → Except String StatusResponse)
    (st : ClientState) : ClientState :=
  if jsTrim st.query = "" then st
  else
    let searchQuery := jsTrim st.query
    let cacheKey := generateKey "search" [("query", searchQuery)]
    match cacheGet st.cacheEntries cacheKey with
    | some cachedResults =>
      { st with results := cachedResults, expanded := false }
    | none =>
      let st := { st with error := "", results := [], expanded := false }
      match searchFn searchQuery with
      | .error e => { st with error := e }
      | .ok searchResponse =>
        if searchResponse.results.length > 0 then
          let domains := searchResponse.results.map Suggestion.domain
          let statusResponses := (checkLoop statusFn domains).1
          let combinedResults :=
            combineResults searchResponse.results statusResponses
          { st with results := combinedResults,
                    cacheEntries :=
                      cacheSet st.cacheEntries cacheKey combinedResults }
        else st

/-- `handleExpandSearch` (App.js, v2): guard the empty query, build the
additional candidate queries, settle all their lookups
(`Promise.allSettled`), de-duplicate the fulfilled batches, check every
collected domain sequentially, combine, merge into the existing results
dropping domains already present, and mark the search expanded. The
`tlds` argument is the `COMMON_TLDS` constant at the real call site. -/
def handleExpandSearch (searchFn : String → Except String SearchResponse)
    (statusFn : String → Except String StatusResponse)
    (tlds : List String) (st : ClientState) : ClientState :=
  if jsTrim st.query = "" then st
  else
    let st := { st with error := "" }
    let settled := (additionalQueries tlds st.query).map searchFn
    let combinedResults := collectSettled settled
    if combinedResults.length > 0 then
      let domains := combinedResults.map Suggestion.domain
      let statusResponses := (checkLoop statusFn domains).1
      let newResults := combineResults combinedResults statusResponses
      { st with results := mergeResults st.results newResults,
                expanded := true }
    else st

/-- The upstream availability assumed by the spec's end-to-end scenario:
`example.com` is unregistered (the upstream Domains API reports
`availability = "available"`), the other two candidates are
registered. -/
def e2eUpstream (d : String) : DomainInfo :=
  if d = "example.com" then { availability := "available", tld := some "com" }
  else { availability := "registered", tld := none }

/-- A status lookup that reaches the v2 server's `GET /api/status`
handler, which consults `e2eUpstream` and applies its response
mapping. -/
def e2eStatusLookup (d : String) : Except String StatusResponse :=
  .ok (apiStatusOf (e2eUpstream d) d)

/-- The three candidates of the end-to-end scenario, as suggestion
records: `example.com`, `example.net` and the bare `example`, in that
order. -/
def e2eCandidates : List Suggestion :=
  [{ domain := "example.com", path := "/domains/example.com",
     subdomain := "", zone := "com" },
   { domain := "example.net", path := "/domains/example.net",
     subdomain := "", zone := "net" },
   { domain := "example", path := "/domains/example", subdomain := "",
     zone := "" }]

/-- The result set the client renders and exports in the end-to-end
scenario: each candidate's status is resolved through the server mapping
and combined by the client's combination step. -/
def e2eResults : List DomainRec :=
  combineResults e2eCandidates
    (checkLoop e2eStatusLookup (e2eCandidates.map Suggestion.domain)).1

/-- C2: evaluation of the code at the end-to-end scenario. The server
maps the unregistered `example.com` to `summary = "available"`, but the
client's classifier `getDomainStatusClass` tests `summary ===
'inactive'`, so ZERO entries of the rendered set carry the "available"
class — not exactly one as the scenario requires — even though the
client's own status-text table maps that same summary to "Disponible"
for exactly one entry. The second and third conjuncts exhibit the
offending record. -/
theorem e2e_scenario_zero_available :
    (e2eResults.filter
        (fun r => getDomainStatusClass r.summary = "available")).length = 0 ∧
    (e2eResults.filter
        (fun r => getDomainStatusText r.summary = "Disponible")).length = 1 ∧
    (e2eResults.map (fun r => (r.domain, r.summary,
        getDomainStatusClass r.summary, getDomainStatusText r.summary)))
      = [("example.com", "available", "unavailable", "Disponible"),
         ("example.net", "taken", "unavailable", "Estado desconocido"),
         ("example", "taken", "unavailable", "Estado desconocido")] := by
  refine ⟨by decide, by decide, by decide⟩

/-- C7 counterexample: the claim's "if" direction fails — on the empty
candidate list the orchestrator does NOT raise an error; it returns the
well-formed empty result array, whatever the lookup collaborator does. -/
theorem orchestrator_empty_input_no_error :
    checkMultipleDomainStatus (fun _ => Except.error "network failure") []
      = .ok [] := rfl

/-- C7 amended: the orchestrator never raises an error to its caller —
for every candidate list, empty or not, it returns `.ok` of a result
array of the input's length — and unusable input (an empty or
whitespace-only query) is filtered out by `handleSearch`'s guard before
orchestration begins, by returning the state unchanged rather than by
raising an error. -/
theorem orchestrator_never_errors
    (lookup : String → Except String StatusResponse) (domains : List String)
    (searchFn : String → Except String SearchResponse)
    (statusFn : String → Except String StatusResponse)
    (st : ClientState) (hq : jsTrim st.query = "") :
    (∃ rs, checkMultipleDomainStatus lookup domains = .ok rs ∧
      rs.length = domains.length) ∧
    handleSearch searchFn statusFn st = st := by
  refine ⟨⟨_, rfl, ?_⟩, ?_⟩
  · rw [checkLoop_fst, List.length_map]
  · rw [handleSearch, if_pos hq]

/-- Closed instance of `orchestrator_never_errors` at a failing lookup,
the domain list ["example.com"], and a whitespace-only query. -/
theorem orchestrator_never_errors_witness :
    (∃ rs, checkMultipleDomainStatus (fun _ => Except.error "down")
        ["example.com"] = .ok rs ∧ rs.length = 1) ∧
    handleSearch (fun _ => Except.error "down") e2eStatusLookup
        { query := "  ", results := [], error := "", expanded := false,
          cacheEntries := [] }
      = { query := "  ", results := [], error := "", expanded := false,
          cacheEntries := [] } :=
  orchestrator_never_errors _ _ _ _ _ (by decide)

/-- The search collaborator of the C9 scenario: every query succeeds with
a single suggestion whose domain is the query string itself. -/
def c9SearchFn (q : String) : Except String SearchResponse :=
  .ok { results := [{ domain := q, path := "", subdomain := "",
                      zone := "" }] }

/-- The client state before the C9 scenario: fresh session, query
"example". -/
def c9Start : ClientState :=
  { query := "example", results := [], error := "", expanded := false,
    cacheEntries := [] }

/-- The state after the initial search of the C9 scenario. -/
def c9AfterSearch : ClientState :=
  handleSearch c9SearchFn e2eStatusLookup c9Start

/-- The state after expanding that search over the single TLD "com". -/
def c9AfterExpand : ClientState :=
  handleExpandSearch c9SearchFn e2eStatusLookup ["com"] c9AfterSearch

/-- C9 counterexample: after an expand-search completes, the cache entry
for the query does NOT hold the merged, de-duplicated result set — the
expansion added "example.com" to the displayed results, but the cache
still holds only the pre-expansion set, so a subsequent identical query
is served the unexpanded results. -/
theorem cache_misses_expanded_results :
    cacheGet c9AfterExpand.cacheEntries
        (generateKey "search" [("query", "example")])
      ≠ some c9AfterExpand.results ∧
    cacheGet c9AfterExpand.cacheEntries
        (generateKey "search" [("query", "example")])
      = some c9AfterSearch.results ∧
    c9AfterExpand.results.map DomainRec.domain = ["example", "example.com"] ∧
    c9AfterSearch.results.map DomainRec.domain = ["example"] := by
  refine ⟨by decide, by decide, by decide, by decide⟩

/-- C9 amended: only `handleSearch` writes to the cache — on a cache
miss with a successful, non-empty suggestion fetch it stores exactly its
own freshly combined result set under the normalized query key —
while `handleExpandSearch` never touches the cache (its cache entries
are unchanged for every input state and collaborator behavior), so after
an expansion the cache entry still holds the pre-expansion set. -/
theorem cache_stores_preexpansion_only
    (searchFn : String → Except String SearchResponse)
    (statusFn : String → Except String StatusResponse)
    (st : ClientState) (resp : SearchResponse)
    (hq : jsTrim st.query ≠ "")
    (hmiss : cacheGet st.cacheEntries
      (generateKey "search" [("query", jsTrim st.query)]) = none)
    (hok : searchFn (jsTrim st.query) = .ok resp)
    (hne : resp.results.length > 0) :
    cacheGet (handleSearch searchFn statusFn st).cacheEntries
        (generateKey "search" [("query", jsTrim st.query)])
      = some (handleSearch searchFn statusFn st).results ∧
    ∀ (sF : String → Except String SearchResponse)
      (stF : String → Except String StatusResponse)
      (tlds : List String) (s : ClientState),
      (handleExpandSearch sF stF tlds s).cacheEntries = s.cacheEntries := by
  constructor
  · simp only [handleSearch, if_neg hq, hmiss, hok, if_pos hne]
    simp [cacheGet, cacheSet, List.lookup]
  · intro sF stF tlds s
    simp only [handleExpandSearch]
    split
    · rfl
    · split <;> rfl

/-- Closed instance of `cache_stores_preexpansion_only` at the C9
scenario's collaborators and starting state. -/
theorem cache_stores_preexpansion_only_witness :
    cacheGet (handleSearch c9SearchFn e2eStatusLookup c9Start).cacheEntries
        (generateKey "search" [("query", jsTrim c9Start.query)])
      = some (handleSearch c9SearchFn e2eStatusLookup c9Start).results ∧
    ∀ (sF : String → Except String SearchResponse)
      (stF : String → Except String StatusResponse)
      (tlds : List String) (s : ClientState),
      (handleExpandSearch sF stF tlds s).cacheEntries = s.cacheEntries :=
  cache_stores_preexpansion_only c9SearchFn e2eStatusLookup c9Start
    { results := [{ domain := "example", path := "", subdomain := "",
                    zone := "" }] }
    (by decide) rfl rfl (by decide)

end DomainChecker
